import Mathlib

/-!
Verification development for the pixel-art rendering engine in
`src/utils/canvasEngine.ts`.

The engine is shallowly embedded: JS numbers are modelled as exact rationals
(`ℚ`) where the source only performs field arithmetic, comparisons, `floor`,
`round` and `%`; the transcendental parts (`Math.sin` in the jitter source,
`Math.sqrt` in the quantizer's distance) are modelled over `ℝ`.

For the quantizer loop, `minDistance` starts at `Infinity`, so the first
palette entry is always adopted on the first iteration; afterwards the loop
compares `Math.sqrt` of sums of squares, and since `Real.sqrt` is strictly
monotone on nonnegative arguments the loop takes exactly the same branches
when run on the squared distances (lemmas `jsDist_lt_iff` / `jsDist_le_iff`
below record this).  The embedding `getClosestColor` therefore folds the
palette with squared-distance comparisons, keeping it executable.
-/

namespace Pixelator

/-- A JS `{r, g, b}` color object (`interface RGB`); channels are JS numbers,
modelled as exact rationals. -/
structure RGB where
  r : ℚ
  g : ℚ
  b : ℚ
deriving DecidableEq, Repr

/-- JS `Math.round`: round half toward positive infinity. -/
def jsRound (x : ℚ) : ℤ := ⌊x + 1/2⌋

/-- Squared Euclidean RGB distance,
`(r - color.r)^2 + (g - color.g)^2 + (b - color.b)^2`, the argument of
`Math.sqrt` in `getClosestColor`. -/
def dist2 (r g b : ℚ) (c : RGB) : ℚ :=
  (r - c.r) ^ 2 + (g - c.g) ^ 2 + (b - c.b) ^ 2

/-- The Euclidean distance computed by the source:
`Math.sqrt(Math.pow(r - color.r, 2) + ... )`. -/
noncomputable def jsDist (r g b : ℚ) (c : RGB) : ℝ :=
  Real.sqrt ((dist2 r g b c : ℚ) : ℝ)

theorem dist2_nonneg (r g b : ℚ) (c : RGB) : 0 ≤ dist2 r g b c := by
  unfold dist2; positivity

theorem jsDist_lt_iff (r g b : ℚ) (c d : RGB) :
    jsDist r g b c < jsDist r g b d ↔ dist2 r g b c < dist2 r g b d := by
  unfold jsDist
  rw [Real.sqrt_lt_sqrt_iff (by exact_mod_cast dist2_nonneg r g b c)]
  exact_mod_cast Iff.rfl

theorem jsDist_le_iff (r g b : ℚ) (c d : RGB) :
    jsDist r g b c ≤ jsDist r g b d ↔ dist2 r g b c ≤ dist2 r g b d := by
  unfold jsDist
  rw [Real.sqrt_le_sqrt_iff (by exact_mod_cast dist2_nonneg r g b d)]
  exact_mod_cast Iff.rfl

/-- The `for (const color of palette)` loop of `getClosestColor`: `best` is the
current `closestColor` and `minD` the current `minDistance` (represented by its
square, see the header comment).  The `minDistance = Infinity` initialisation is
folded into `getClosestColor` below: the first iteration always updates. -/
def getClosestColorAux (r g b : ℚ) : RGB → ℚ → List RGB → RGB
  | best, _, [] => best
  | best, minD, c :: rest =>
    if dist2 r g b c < minD then getClosestColorAux r g b c (dist2 r g b c) rest
    else getClosestColorAux r g b best minD rest

/-- The function `getClosestColor(r, g, b, palette)` from `canvasEngine.ts`: returns
`{r, g, b}` if the palette is empty, otherwise runs the minimum-distance loop
(the first iteration necessarily replaces the `Infinity` initial distance with
the first entry's distance). -/
def getClosestColor (r g b : ℚ) (palette : List RGB) : RGB :=
  match palette with
  | [] => ⟨r, g, b⟩
  | c :: rest => getClosestColorAux r g b c (dist2 r g b c) rest

theorem getClosestColorAux_mem (r g b : ℚ) (best : RGB) (minD : ℚ)
    (l : List RGB) : getClosestColorAux r g b best minD l ∈ best :: l := by
  induction l generalizing best minD with
  | nil => simp [getClosestColorAux]
  | cons c rest ih =>
    rw [getClosestColorAux]
    by_cases h : dist2 r g b c < minD
    · simp only [h, if_true]
      rcases List.mem_cons.mp (ih c (dist2 r g b c)) with h1 | h1
      · rw [h1]; simp
      · right; right; exact h1
    · simp only [h, if_false]
      rcases List.mem_cons.mp (ih best minD) with h1 | h1
      · rw [h1]; simp
      · right; right; exact h1

theorem getClosestColor_mem (r g b : ℚ) (palette : List RGB)
    (h : palette ≠ []) : getClosestColor r g b palette ∈ palette := by
  match palette with
  | [] => exact absurd rfl h
  | c :: rest => exact getClosestColorAux_mem r g b c (dist2 r g b c) rest

theorem getClosestColorAux_dist_le (r g b : ℚ) (best : RGB) (minD : ℚ)
    (l : List RGB) (hm : dist2 r g b best ≤ minD) :
    dist2 r g b (getClosestColorAux r g b best minD l) ≤ minD := by
  induction l generalizing best minD with
  | nil => simpa [getClosestColorAux] using hm
  | cons c rest ih =>
    rw [getClosestColorAux]
    by_cases h : dist2 r g b c < minD
    · simp only [h, if_true]
      exact le_trans (ih c (dist2 r g b c) le_rfl) (le_of_lt h)
    · simp only [h, if_false]
      exact ih best minD hm

theorem getClosestColorAux_min (r g b : ℚ) (best : RGB) (minD : ℚ)
    (l : List RGB) (hm : dist2 r g b best ≤ minD) :
    ∀ c ∈ l, dist2 r g b (getClosestColorAux r g b best minD l) ≤ dist2 r g b c := by
  induction l generalizing best minD with
  | nil => intro c hc; cases hc
  | cons c rest ih =>
    intro x hx
    rw [getClosestColorAux]
    by_cases h : dist2 r g b c < minD
    · simp only [h, if_true]
      rcases List.mem_cons.mp hx with hx1 | hx1
      · rw [hx1]
        exact getClosestColorAux_dist_le r g b c (dist2 r g b c) rest le_rfl
      · exact ih c (dist2 r g b c) le_rfl x hx1
    · simp only [h, if_false]
      rcases List.mem_cons.mp hx with hx1 | hx1
      · rw [hx1]
        exact le_trans (getClosestColorAux_dist_le r g b best minD rest hm)
          (le_of_not_lt h)
      · exact ih best minD hm x hx1

theorem getClosestColorAux_first (r g b : ℚ) (best : RGB)
    (l : List RGB) :
    ∃ i, (best :: l).get? i = some (getClosestColorAux r g b best (dist2 r g b best) l) ∧
      ∀ j x, j < i → (best :: l).get? j = some x →
        dist2 r g b (getClosestColorAux r g b best (dist2 r g b best) l) < dist2 r g b x := by
  induction l generalizing best with
  | nil =>
    refine ⟨0, by simp [getClosestColorAux], ?_⟩
    intro j x hj _; omega
  | cons c rest ih =>
    rw [getClosestColorAux]
    by_cases h : dist2 r g b c < dist2 r g b best
    · simp only [h, if_true]
      obtain ⟨i, hi, hfirst⟩ := ih c
      refine ⟨i + 1, by simpa using hi, ?_⟩
      intro j x hj hx
      cases j with
      | zero =>
        simp only [List.get?_cons_zero, Option.some.injEq] at hx
        subst hx
        exact lt_of_le_of_lt
          (getClosestColorAux_dist_le r g b c (dist2 r g b c) rest le_rfl) h
      | succ j' =>
        exact hfirst j' x (by omega) (by simpa using hx)
    · simp only [h, if_false]
      obtain ⟨i, hi, hfirst⟩ := ih best
      cases i with
      | zero =>
        simp only [List.get?_cons_zero, Option.some.injEq] at hi
        refine ⟨0, by simp [← hi], ?_⟩
        intro j x hj _; omega
      | succ i' =>
        simp only [List.get?_cons_succ] at hi
        refine ⟨i' + 2, by simpa using hi, ?_⟩
        intro j x hj hx
        have hbest : dist2 r g b (getClosestColorAux r g b best (dist2 r g b best) rest)
            < dist2 r g b best := hfirst 0 best (by omega) (by simp)
        cases j with
        | zero =>
          simp only [List.get?_cons_zero, Option.some.injEq] at hx
          subst hx
          exact hbest
        | succ j' =>
          cases j' with
          | zero =>
            simp only [List.get?_cons_succ, List.get?_cons_zero,
              Option.some.injEq] at hx
            subst hx
            exact lt_of_lt_of_le hbest (le_of_not_lt h)
          | succ j'' =>
            exact hfirst (j'' + 1) x (by omega) (by simpa using hx)

theorem getClosestColor_min (r g b : ℚ) (P : List RGB) :
    ∀ c ∈ P, dist2 r g b (getClosestColor r g b P) ≤ dist2 r g b c := by
  match P with
  | [] => intro c hc; cases hc
  | c :: rest =>
    intro d hd
    rcases List.mem_cons.mp hd with h1 | h1
    · rw [h1]
      exact getClosestColorAux_dist_le r g b c (dist2 r g b c) rest le_rfl
    · exact getClosestColorAux_min r g b c (dist2 r g b c) rest le_rfl d h1

/-- C1: for every color `(r, g, b)` and palette `P`, `getClosestColor`
returns `(r, g, b)` itself when `P` is empty; otherwise it returns an entry of
`P` (at some index `i`) that minimises the Euclidean RGB distance
`sqrt((r-cr)^2 + (g-cg)^2 + (b-cb)^2)`, and every entry at an earlier index
than `i` has strictly larger distance (ties are broken in favour of the first
palette entry in iteration order). -/
theorem getClosestColor_correct (r g b : ℚ) (P : List RGB) :
    (P = [] → getClosestColor r g b P = ⟨r, g, b⟩) ∧
    (P ≠ [] →
      ∃ i, P.get? i = some (getClosestColor r g b P) ∧
        (∀ c ∈ P, jsDist r g b (getClosestColor r g b P) ≤ jsDist r g b c) ∧
        ∀ j x, j < i → P.get? j = some x →
          jsDist r g b (getClosestColor r g b P) < jsDist r g b x) := by
  constructor
  · intro h; rw [h]; rfl
  · intro h
    match P with
    | [] => exact absurd rfl h
    | c :: rest =>
      obtain ⟨i, hi, hfirst⟩ := getClosestColorAux_first r g b c rest
      refine ⟨i, hi, ?_, ?_⟩
      · intro d hd
        rw [jsDist_le_iff]
        exact getClosestColor_min r g b (c :: rest) d hd
      · intro j x hj hx
        rw [jsDist_lt_iff]
        exact hfirst j x hj hx

/-- Witness for C1 at the color (26, 26, 26) and the palette
[black, white]. -/
theorem getClosestColor_correct_witness :
    ∃ i, ([⟨0, 0, 0⟩, ⟨255, 255, 255⟩] : List RGB).get? i =
        some (getClosestColor 26 26 26 [⟨0, 0, 0⟩, ⟨255, 255, 255⟩]) ∧
      (∀ c ∈ ([⟨0, 0, 0⟩, ⟨255, 255, 255⟩] : List RGB),
        jsDist 26 26 26 (getClosestColor 26 26 26 [⟨0, 0, 0⟩, ⟨255, 255, 255⟩]) ≤
          jsDist 26 26 26 c) ∧
      ∀ j x, j < i → ([⟨0, 0, 0⟩, ⟨255, 255, 255⟩] : List RGB).get? j = some x →
        jsDist 26 26 26 (getClosestColor 26 26 26 [⟨0, 0, 0⟩, ⟨255, 255, 255⟩]) <
          jsDist 26 26 26 x :=
  (getClosestColor_correct 26 26 26 [⟨0, 0, 0⟩, ⟨255, 255, 255⟩]).2 (by decide)

/-- The working surface's pixel buffer: the offscreen canvas dimensions
(`workWidth`, `workHeight`) together with the `imgData` byte array, modelled as
a total function from a JS numeric index to the byte read there. -/
structure Surface where
  width : ℚ
  height : ℚ
  data : ℚ → ℕ

/-- The sampling stride `Math.max(1, Math.floor(cellSize / 4))`. -/
def stepOf (cellSize : ℚ) : ℕ := max 1 (Int.toNat ⌊cellSize / 4⌋)

/-- The offsets visited by `for (let cy = 0; cy < cellSize; cy += step)`: the
multiples `k * step` for `k < ⌈cellSize / step⌉` (`mem_sampleOffsets` below
checks this is exactly the loop's iteration set `k * step < cellSize`). -/
def sampleOffsets (cellSize : ℚ) : List ℕ :=
  (List.range (Nat.ceil (cellSize / (stepOf cellSize : ℚ)))).map
    (fun k => k * stepOf cellSize)

theorem stepOf_pos (c : ℚ) : 0 < stepOf c :=
  lt_of_lt_of_le one_pos (le_max_left 1 _)

theorem mem_sampleOffsets (c : ℚ) (v : ℕ) :
    v ∈ sampleOffsets c ↔ ∃ k, v = k * stepOf c ∧ (v : ℚ) < c := by
  unfold sampleOffsets
  simp only [List.mem_map, List.mem_range]
  constructor
  · rintro ⟨k, hk, rfl⟩
    refine ⟨k, rfl, ?_⟩
    rw [Nat.lt_ceil, lt_div_iff (by exact_mod_cast stepOf_pos c)] at hk
    push_cast
    push_cast at hk
    linarith
  · rintro ⟨k, rfl, hv⟩
    refine ⟨k, ?_, rfl⟩
    rw [Nat.lt_ceil, lt_div_iff (by exact_mod_cast stepOf_pos c)]
    push_cast
    push_cast at hv
    linarith

/-- The sample coordinates `(Math.floor(px + cx), Math.floor(py + cy))` visited
by the two nested stride loops (`cy` outer, `cx` inner). -/
def samplePoints (cellSize px py : ℚ) : List (ℤ × ℤ) :=
  (sampleOffsets cellSize).flatMap fun (cy : ℕ) =>
    (sampleOffsets cellSize).map fun (cx : ℕ) => (⌊px + (cx : ℚ)⌋, ⌊py + (cy : ℚ)⌋)

/-- The bounds check `sampleX < workWidth && sampleY < workHeight`. -/
def inBounds (surf : Surface) (p : ℤ × ℤ) : Bool :=
  decide (((p.1 : ℚ) < surf.width) ∧ ((p.2 : ℚ) < surf.height))

/-- The three bytes read at `index = (sampleY * workWidth + sampleX) * 4`. -/
def pixelAt (surf : Surface) (p : ℤ × ℤ) : ℕ × ℕ × ℕ :=
  (surf.data (((p.2 : ℚ) * surf.width + (p.1 : ℚ)) * 4),
   surf.data (((p.2 : ℚ) * surf.width + (p.1 : ℚ)) * 4 + 1),
   surf.data (((p.2 : ℚ) * surf.width + (p.1 : ℚ)) * 4 + 2))

/-- The accumulation `r += ...; g += ...; b += ...; count++` over the sample
points, guarded by the bounds check. -/
def sampleAcc (surf : Surface) : List (ℤ × ℤ) → ℕ × ℕ × ℕ × ℕ
  | [] => (0, 0, 0, 0)
  | p :: rest =>
    let acc := sampleAcc surf rest
    if inBounds surf p then
      ((pixelAt surf p).1 + acc.1, (pixelAt surf p).2.1 + acc.2.1,
       (pixelAt surf p).2.2 + acc.2.2.1, 1 + acc.2.2.2)
    else acc

/-- The per-cell sampler of `processImage`: sum the stride-sampled in-bounds
pixels, then `if (count > 0)` round each channel's average; with no in-bounds
sample, `r`, `g`, `b` keep their initial value `0`. -/
def sampleCell (surf : Surface) (cellSize : ℚ) (x y : ℕ) : ℤ × ℤ × ℤ :=
  let acc := sampleAcc surf (samplePoints cellSize (x * cellSize) (y * cellSize))
  if 0 < acc.2.2.2 then
    (jsRound ((acc.1 : ℚ) / acc.2.2.2), jsRound ((acc.2.1 : ℚ) / acc.2.2.2),
     jsRound ((acc.2.2.1 : ℚ) / acc.2.2.2))
  else (0, 0, 0)

theorem sampleAcc_eq (surf : Surface) (l : List (ℤ × ℤ)) :
    sampleAcc surf l =
      (((l.filter (inBounds surf)).map fun p => (pixelAt surf p).1).sum,
       ((l.filter (inBounds surf)).map fun p => (pixelAt surf p).2.1).sum,
       ((l.filter (inBounds surf)).map fun p => (pixelAt surf p).2.2).sum,
       (l.filter (inBounds surf)).length) := by
  induction l with
  | nil => rfl
  | cons p rest ih =>
    by_cases h : inBounds surf p
    · simp [sampleAcc, h, ih, List.filter_cons, Nat.add_comm]
    · simp [sampleAcc, h, ih, List.filter_cons]

theorem sampleOffsets_length_le (c : ℚ) : (sampleOffsets c).length ≤ 8 := by
  unfold sampleOffsets
  rw [List.length_map, List.length_range, Nat.ceil_le]
  rcases le_or_lt (⌊c / 4⌋) 1 with h | h
  · have hs : stepOf c = 1 := by unfold stepOf; omega
    rw [hs]
    have h4 : c / 4 < (1 : ℤ) + 1 := lt_of_lt_of_le (Int.lt_floor_add_one _)
      (by exact_mod_cast add_le_add_right h 1)
    push_cast
    push_cast at h4
    linarith
  · have hz : ((stepOf c : ℕ) : ℤ) = ⌊c / 4⌋ := by unfold stepOf; omega
    have hsq : ((stepOf c : ℕ) : ℚ) = ((⌊c / 4⌋ : ℤ) : ℚ) := by exact_mod_cast hz
    have hfl : c / 4 - 1 < ((⌊c / 4⌋ : ℤ) : ℚ) := Int.sub_one_lt_floor _
    have hle : ((⌊c / 4⌋ : ℤ) : ℚ) ≤ c / 4 := Int.floor_le _
    have h2 : (2 : ℚ) ≤ ((⌊c / 4⌋ : ℤ) : ℚ) := by exact_mod_cast h
    rw [div_le_iff (by rw [hsq]; linarith), hsq]
    linarith

theorem length_bind_const {α β : Type} (l : List α) (f : α → List β)
    (n : ℕ) (h : ∀ a ∈ l, (f a).length = n) :
    (l.flatMap f).length = l.length * n := by
  induction l with
  | nil => simp
  | cons a t ih =>
    rw [List.flatMap_cons, List.length_append, h a (List.mem_cons_self a t),
      ih fun b hb => h b (List.mem_cons_of_mem a hb), List.length_cons]
    ring

theorem samplePoints_length (c px py : ℚ) :
    (samplePoints c px py).length = (sampleOffsets c).length * (sampleOffsets c).length := by
  unfold samplePoints
  exact length_bind_const _ _ _ fun a _ => List.length_map _ _

/-- C3 (with the sample-point bound amended from 16 to 64): the cell sampler
returns the rounded per-channel arithmetic mean of the pixels it visits at
stride `max(1, floor(cellSize/4))` that lie within surface bounds, returns
black `(0,0,0)` when no visited point is in bounds, and visits at most
8 × 8 = 64 sample points per cell. -/
theorem sampleCell_spec (surf : Surface) (cellSize : ℚ) (x y : ℕ) :
    (((samplePoints cellSize (x * cellSize) (y * cellSize)).filter
        (inBounds surf)).length = 0 →
      sampleCell surf cellSize x y = (0, 0, 0)) ∧
    (0 < ((samplePoints cellSize (x * cellSize) (y * cellSize)).filter
        (inBounds surf)).length →
      sampleCell surf cellSize x y =
        (jsRound (((((samplePoints cellSize (x * cellSize) (y * cellSize)).filter
              (inBounds surf)).map fun p => (pixelAt surf p).1).sum : ℚ) /
            (((samplePoints cellSize (x * cellSize) (y * cellSize)).filter
              (inBounds surf)).length : ℚ)),
         jsRound (((((samplePoints cellSize (x * cellSize) (y * cellSize)).filter
              (inBounds surf)).map fun p => (pixelAt surf p).2.1).sum : ℚ) /
            (((samplePoints cellSize (x * cellSize) (y * cellSize)).filter
              (inBounds surf)).length : ℚ)),
         jsRound (((((samplePoints cellSize (x * cellSize) (y * cellSize)).filter
              (inBounds surf)).map fun p => (pixelAt surf p).2.2).sum : ℚ) /
            (((samplePoints cellSize (x * cellSize) (y * cellSize)).filter
              (inBounds surf)).length : ℚ)))) ∧
    (samplePoints cellSize (x * cellSize) (y * cellSize)).length ≤ 64 := by
  refine ⟨?_, ?_, ?_⟩
  · intro h
    unfold sampleCell
    rw [sampleAcc_eq, h]
    simp
  · intro h
    unfold sampleCell
    rw [sampleAcc_eq]
    simp only [h, if_pos]
  · rw [samplePoints_length]
    exact Nat.mul_le_mul (sampleOffsets_length_le cellSize)
      (sampleOffsets_length_le cellSize)

theorem samplePoints_zero_inBounds (surf : Surface) (c : ℚ)
    (hw : c ≤ surf.width) (hh : c ≤ surf.height) :
    ∀ p ∈ samplePoints c 0 0, inBounds surf p = true := by
  intro p hp
  unfold samplePoints at hp
  simp only [List.mem_flatMap, List.mem_map] at hp
  obtain ⟨cy, hcy, cx, hcx, rfl⟩ := hp
  obtain ⟨_, _, hcx'⟩ := (mem_sampleOffsets c cx).mp hcx
  obtain ⟨_, _, hcy'⟩ := (mem_sampleOffsets c cy).mp hcy
  unfold inBounds
  simp only [zero_add, Int.floor_natCast, decide_eq_true_eq]
  refine ⟨?_, ?_⟩
  · push_cast
    exact lt_of_lt_of_le hcx' hw
  · push_cast
    exact lt_of_lt_of_le hcy' hh

theorem stepOf_four : stepOf 4 = 1 := by
  unfold stepOf
  have h : ⌊(4 : ℚ) / 4⌋ = 1 := by norm_num
  rw [h]
  decide

theorem stepOf_five : stepOf 5 = 1 := by
  unfold stepOf
  have h : ⌊(5 : ℚ) / 4⌋ = 1 := by
    rw [Int.floor_eq_iff]
    norm_num
  rw [h]
  decide

theorem sampleOffsets_four_length : (sampleOffsets 4).length = 4 := by
  unfold sampleOffsets
  rw [List.length_map, List.length_range, stepOf_four]
  norm_num

theorem sampleOffsets_five_length : (sampleOffsets 5).length = 5 := by
  unfold sampleOffsets
  rw [List.length_map, List.length_range, stepOf_five]
  norm_num

/-- Witness for C3 on a 4×4 surface of constant pixel value 7 with
cellSize 4: all 16 visited sample points are in bounds and the sampler
returns the rounded per-channel mean. -/
theorem sampleCell_spec_witness :
    sampleCell ⟨4, 4, fun _ => 7⟩ 4 0 0 =
      (jsRound (((((samplePoints 4 ((0 : ℕ) * (4 : ℚ)) ((0 : ℕ) * (4 : ℚ))).filter
            (inBounds ⟨4, 4, fun _ => 7⟩)).map
            fun p => (pixelAt ⟨4, 4, fun _ => 7⟩ p).1).sum : ℚ) /
          (((samplePoints 4 ((0 : ℕ) * (4 : ℚ)) ((0 : ℕ) * (4 : ℚ))).filter
            (inBounds ⟨4, 4, fun _ => 7⟩)).length : ℚ)),
       jsRound (((((samplePoints 4 ((0 : ℕ) * (4 : ℚ)) ((0 : ℕ) * (4 : ℚ))).filter
            (inBounds ⟨4, 4, fun _ => 7⟩)).map
            fun p => (pixelAt ⟨4, 4, fun _ => 7⟩ p).2.1).sum : ℚ) /
          (((samplePoints 4 ((0 : ℕ) * (4 : ℚ)) ((0 : ℕ) * (4 : ℚ))).filter
            (inBounds ⟨4, 4, fun _ => 7⟩)).length : ℚ)),
       jsRound (((((samplePoints 4 ((0 : ℕ) * (4 : ℚ)) ((0 : ℕ) * (4 : ℚ))).filter
            (inBounds ⟨4, 4, fun _ => 7⟩)).map
            fun p => (pixelAt ⟨4, 4, fun _ => 7⟩ p).2.2).sum : ℚ) /
          (((samplePoints 4 ((0 : ℕ) * (4 : ℚ)) ((0 : ℕ) * (4 : ℚ))).filter
            (inBounds ⟨4, 4, fun _ => 7⟩)).length : ℚ))) := by
  refine (sampleCell_spec ⟨4, 4, fun _ => 7⟩ 4 0 0).2.1 ?_
  have h0 : ((0 : ℕ) : ℚ) * (4 : ℚ) = 0 := by norm_num
  rw [h0, List.filter_eq_self.mpr (samplePoints_zero_inBounds _ 4 le_rfl le_rfl),
    samplePoints_length, sampleOffsets_four_length]
  norm_num

/-- Counterexample to C3's "at most 16 sample points per cell": on a 5×5
working surface with gridSize 1, the cell size is 5, the stride is
`max(1, floor(5/4)) = 1`, and the single cell visits 5 × 5 = 25 sample
points, all of them within surface bounds. -/
theorem sampleCell_16_bound_counterexample :
    (samplePoints 5 ((0 : ℕ) * (5 : ℚ)) ((0 : ℕ) * (5 : ℚ))).length = 25 ∧
    ((samplePoints 5 ((0 : ℕ) * (5 : ℚ)) ((0 : ℕ) * (5 : ℚ))).filter
      (inBounds ⟨5, 5, fun _ => 0⟩)).length = 25 ∧
    ¬((samplePoints 5 ((0 : ℕ) * (5 : ℚ)) ((0 : ℕ) * (5 : ℚ))).length ≤ 16) := by
  have h0 : ((0 : ℕ) : ℚ) * (5 : ℚ) = 0 := by norm_num
  have hlen : (samplePoints 5 ((0 : ℕ) * (5 : ℚ)) ((0 : ℕ) * (5 : ℚ))).length = 25 := by
    rw [h0, samplePoints_length, sampleOffsets_five_length]
  refine ⟨hlen, ?_, by omega⟩
  rw [h0, List.filter_eq_self.mpr (samplePoints_zero_inBounds _ 5 le_rfl le_rfl),
    samplePoints_length, sampleOffsets_five_length]

/-- JS fractional part as written in the source: `x - Math.floor(x)`. -/
noncomputable def jsFract (x : ℝ) : ℝ := x - ⌊x⌋

/-- The deterministic jitter source
`prng = (seed) => { const x = Math.sin(seed++) * 10000; return x - Math.floor(x); }`
(the inner `seed++` only increments `prng`'s local parameter copy and has no
effect, so the draw uses exactly the passed seed). -/
noncomputable def prng (seed : ℤ) : ℝ := jsFract (Real.sin (seed : ℝ) * 10000)

/-- JS `%`: for the nonnegative operands used in the jitter step
(`channel + jitter * 50 ≥ 0`, modulus `255 > 0`) the JS remainder equals the
floor-based remainder `a - b * Math.floor(a / b)`. -/
noncomputable def jsFmod (a b : ℝ) : ℝ := a - b * (⌊a / b⌋ : ℤ)

/-- JS `Math.round` over the reals (round half toward positive infinity). -/
noncomputable def jsRoundR (x : ℝ) : ℤ := ⌊x + 1/2⌋

/-- The jitter block (`if (options.randomSeed > 0)`): three consecutive draws
R, G, B on the running counter, each added as `prng(seed++) * 50` and reduced
`% 255`. -/
noncomputable def jitterTriple (seed : ℤ) (r g b : ℤ) : ℝ × ℝ × ℝ :=
  (jsFmod ((r : ℝ) + prng seed * 50) 255,
   jsFmod ((g : ℝ) + prng (seed + 1) * 50) 255,
   jsFmod ((b : ℝ) + prng (seed + 2) * 50) 255)

/-- The final per-channel `Math.max(0, Math.min(255, Math.round(...)))`. -/
def clamp255 (z : ℤ) : ℤ := max 0 (min 255 z)

/-- Brightness scaling, then saturation scaling around the luma
`0.2989 R + 0.5870 G + 0.1140 B`, then round and clamp each channel. -/
noncomputable def transform (brightness saturation : ℚ) (t : ℝ × ℝ × ℝ) : ℤ × ℤ × ℤ :=
  let r1 := t.1 * (brightness : ℝ)
  let g1 := t.2.1 * (brightness : ℝ)
  let b1 := t.2.2 * (brightness : ℝ)
  let gray := 0.2989 * r1 + 0.5870 * g1 + 0.1140 * b1
  (clamp255 (jsRoundR (gray + (saturation : ℝ) * (r1 - gray))),
   clamp255 (jsRoundR (gray + (saturation : ℝ) * (g1 - gray))),
   clamp255 (jsRoundR (gray + (saturation : ℝ) * (b1 - gray))))

/-- The Color Transform Pipeline as applied to each cell's sampled color:
jitter (only when `options.randomSeed > 0`), then brightness, saturation and
round-and-clamp.  `brightness`/`saturation` are the optional `ProcessOptions`
fields, defaulted to 1.0 via `options.x !== undefined ? options.x : 1.0`. -/
noncomputable def transformPipeline (randomSeed : ℤ) (brightness saturation : Option ℚ)
    (seed : ℤ) (r g b : ℤ) : ℤ × ℤ × ℤ :=
  transform (brightness.getD 1) (saturation.getD 1)
    (if 0 < randomSeed then jitterTriple seed r g b else ((r : ℝ), (g : ℝ), (b : ℝ)))

theorem jsFract_eq_fract (x : ℝ) : jsFract x = Int.fract x := rfl

theorem prng_nonneg (seed : ℤ) : 0 ≤ prng seed := by
  rw [prng, jsFract_eq_fract]
  exact Int.fract_nonneg _

theorem prng_lt_one (seed : ℤ) : prng seed < 1 := by
  rw [prng, jsFract_eq_fract]
  exact Int.fract_lt_one _

theorem jsRoundR_intCast (z : ℤ) : jsRoundR (z : ℝ) = z := by
  rw [jsRoundR, Int.floor_int_add]
  norm_num

theorem clamp255_round_sat_one (x : ℝ) (z : ℤ) (h1 : 0 ≤ z) (h2 : z ≤ 255) :
    clamp255 (jsRoundR (x + ((z : ℝ) - x))) = z := by
  have hx : x + ((z : ℝ) - x) = (z : ℝ) := by ring
  rw [hx, jsRoundR_intCast, clamp255]
  omega

theorem transform_one_one (r g b : ℤ) (hr : 0 ≤ r ∧ r ≤ 255)
    (hg : 0 ≤ g ∧ g ≤ 255) (hb : 0 ≤ b ∧ b ≤ 255) :
    transform 1 1 ((r : ℝ), (g : ℝ), (b : ℝ)) = (r, g, b) := by
  unfold transform
  simp only [Rat.cast_one, mul_one, one_mul, Prod.mk.injEq]
  exact ⟨clamp255_round_sat_one _ r hr.1 hr.2,
    clamp255_round_sat_one _ g hg.1 hg.2, clamp255_round_sat_one _ b hb.1 hb.2⟩

/-- C5: with saturation 1.0, brightness 1.0 and randomSeed 0 (jitter
disabled), the Color Transform Pipeline returns every sampled color with
integer channels in [0, 255] unchanged. -/
theorem transformPipeline_identity (brightness saturation : Option ℚ)
    (hbr : brightness.getD 1 = 1) (hsat : saturation.getD 1 = 1)
    (seed r g b : ℤ) (hr : 0 ≤ r ∧ r ≤ 255) (hg : 0 ≤ g ∧ g ≤ 255)
    (hb : 0 ≤ b ∧ b ≤ 255) :
    transformPipeline 0 brightness saturation seed r g b = (r, g, b) := by
  rw [transformPipeline, if_neg (lt_irrefl 0), hbr, hsat]
  exact transform_one_one r g b hr hg hb

/-- Witness for C5 at the sampled color (10, 20, 30). -/
theorem transformPipeline_identity_witness :
    transformPipeline 0 (some 1) (some 1) 0 10 20 30 = (10, 20, 30) :=
  transformPipeline_identity (some 1) (some 1) rfl rfl 0 10 20 30
    (by decide) (by decide) (by decide)


/-- The `FilterType` union of `canvasEngine.ts`. -/
inductive FilterType
  | none
  | noir
  | popart
  | rainbow
deriving DecidableEq, Repr

/-- The `ShapeType` union of `canvasEngine.ts`. -/
inductive ShapeType
  | square
  | rectangle
  | circle
  | heart
deriving DecidableEq, Repr

/-- Noir's fixed contrast push:
`gray > 128 ? Math.min(255, gray + 50) : Math.max(0, gray - 50)`. -/
def noirContrast (gray : ℤ) : ℤ :=
  if gray > 128 then min 255 (gray + 50) else max 0 (gray - 50)

/-- The noir branch: luma `Math.round(R*0.299 + G*0.587 + B*0.114)`, contrast
push, then quantization of the grey triple against the active palette. -/
def noirFilter (tR tG tB : ℤ) (palette : List RGB) : RGB :=
  getClosestColor
    ((noirContrast (jsRound ((tR : ℚ) * 0.299 + (tG : ℚ) * 0.587 + (tB : ℚ) * 0.114)) : ℤ) : ℚ)
    ((noirContrast (jsRound ((tR : ℚ) * 0.299 + (tG : ℚ) * 0.587 + (tB : ℚ) * 0.114)) : ℤ) : ℚ)
    ((noirContrast (jsRound ((tR : ℚ) * 0.299 + (tG : ℚ) * 0.587 + (tB : ℚ) * 0.114)) : ℤ) : ℚ)
    palette

/-- The lookup `palette.find(c => c.r === 255 && c.g === 127 && c.b === 0) || palette[0]`.
A `none` result models `undefined`, whose subsequent `.r` access throws. -/
def orangeEntry (palette : List RGB) : Option RGB :=
  match palette.find? (fun c => c.r == 255 && c.g == 127 && c.b == 0) with
  | some c => some c
  | none => palette.head?

/-- The index `Math.min(Math.floor((bVal / 256) * palette.length), palette.length - 1)`. -/
def gradientIndex (bVal : ℤ) (len : ℕ) : ℤ :=
  min ⌊(bVal : ℚ) / 256 * (len : ℚ)⌋ ((len : ℤ) - 1)

/-- JS array access `palette[i]`: `none` models the `undefined` element (whose
subsequent member access throws). -/
def listGetJS (l : List RGB) (i : ℤ) : Option RGB :=
  if 0 ≤ i then l.get? i.toNat else none

/-- The quantization strategy choice of the rainbow/popart branch: distance
matching for palettes with more than 5 entries while jitter is active,
gradient-index mapping otherwise. -/
def quantizeStep (tR tG tB : ℤ) (palette : List RGB) (randomSeed : ℤ) : Option RGB :=
  if 5 < palette.length ∧ 0 < randomSeed then
    some (getClosestColor (tR : ℚ) (tG : ℚ) (tB : ℚ) palette)
  else
    listGetJS palette
      (gradientIndex (jsRound ((tR : ℚ) * 0.299 + (tG : ℚ) * 0.587 + (tB : ℚ) * 0.114))
        palette.length)

/-- The `styled` flag logic of the rainbow/popart branch.  `some res` means a
styled branch ran (`res = none` modelling the `TypeError` thrown by the
brownish branch's member access on an empty palette); `none` means the color
was not styled. -/
def styledStep (tR tG tB : ℤ) (palette : List RGB) : Option (Option RGB) :=
  let maxV := max tR (max tG tB)
  let minV := min tR (min tG tB)
  let diff := maxV - minV
  if diff < 30 then
    some (some (if ((maxV : ℚ) + (minV : ℚ)) / 2 < 120 then ⟨0, 0, 0⟩ else ⟨255, 255, 255⟩))
  else if tR > tG ∧ tG > tB ∧ tR > 60 ∧ diff < 120 then
    some (orangeEntry palette)
  else none

/-- The shared rainbow/popart mapping: styled branches first, then
`if (!styled || options.filter === 'popart')` the quantization step
(overwriting the styled color in the popart case); a crash in the brownish
branch aborts before the quantization step. -/
def rainbowPopartFilter (filter : FilterType) (tR tG tB : ℤ) (palette : List RGB)
    (randomSeed : ℤ) : Option RGB :=
  match styledStep tR tG tB palette with
  | some (some c) =>
    if filter = FilterType.popart then quantizeStep tR tG tB palette randomSeed
    else some c
  | some Option.none => Option.none
  | Option.none => quantizeStep tR tG tB palette randomSeed

/-- The filter dispatch of `processImage` (the `if/else if` chain on
`options.filter`); `none` passes the transformed color through. -/
def applyFilter (filter : FilterType) (tR tG tB : ℤ) (palette : List RGB)
    (randomSeed : ℤ) : Option RGB :=
  match filter with
  | FilterType.noir => some (noirFilter tR tG tB palette)
  | FilterType.rainbow => rainbowPopartFilter FilterType.rainbow tR tG tB palette randomSeed
  | FilterType.popart => rainbowPopartFilter FilterType.popart tR tG tB palette randomSeed
  | FilterType.none => some ⟨(tR : ℚ), (tG : ℚ), (tB : ℚ)⟩

/-- The fixed 7-entry `DESATURATE_PALETTE` constant. -/
def DESATURATE_PALETTE : List RGB :=
  [⟨255, 0, 0⟩, ⟨255, 255, 0⟩, ⟨0, 255, 0⟩, ⟨0, 0, 255⟩, ⟨255, 0, 255⟩,
   ⟨0, 0, 0⟩, ⟨255, 255, 255⟩]

/-- The `if (options.isDesaturated)` post-pass. -/
def desatStep (isDesaturated : Bool) (c : RGB) : RGB :=
  if isDesaturated then getClosestColor c.r c.g c.b DESATURATE_PALETTE else c

/-- The blinking 10th row/column override. -/
def blinkStep (blinkState : Bool) (x y : ℕ) (c : RGB) : RGB :=
  if blinkState ∧ ((x + 1) % 10 = 0 ∨ (y + 1) % 10 = 0) then
    if jsRound (c.r * 0.299 + c.g * 0.587 + c.b * 0.114) > 128 then ⟨50, 50, 50⟩
    else ⟨255, 255, 255⟩
  else c

/-- C6: against the two-entry palette [black, white], the noir filter always
outputs one of exactly those two colors, and for a transformed solid red cell
(255, 0, 0) the luma is round(76.245) = 76, the contrast push gives
max(0, 76-50) = 26, and the nearest of black/white to (26, 26, 26) is black. -/
theorem noirFilter_black_white :
    (∀ tR tG tB : ℤ, noirFilter tR tG tB [⟨0, 0, 0⟩, ⟨255, 255, 255⟩] ∈
      ([⟨0, 0, 0⟩, ⟨255, 255, 255⟩] : List RGB)) ∧
    noirFilter 255 0 0 [⟨0, 0, 0⟩, ⟨255, 255, 255⟩] = ⟨0, 0, 0⟩ := by
  constructor
  · intro tR tG tB
    exact getClosestColor_mem _ _ _ _ (by simp)
  · have hgray : jsRound (((255 : ℤ) : ℚ) * 0.299 + ((0 : ℤ) : ℚ) * 0.587 +
        ((0 : ℤ) : ℚ) * 0.114) = 76 := by
      rw [jsRound, Int.floor_eq_iff]
      norm_num
    rw [noirFilter, hgray]
    have hcon : noirContrast 76 = 26 := by rw [noirContrast]; norm_num
    rw [hcon]
    rw [getClosestColor, getClosestColorAux, if_neg (by rw [dist2, dist2]; norm_num),
      getClosestColorAux]

/-- C7: whenever the desaturation toggle is set, the desaturation post-pass
maps the style filter's output — whichever filter produced it — to a member
of the fixed 7-entry palette. -/
theorem desatStep_seven_colors (filter : FilterType) (tR tG tB : ℤ)
    (palette : List RGB) (randomSeed : ℤ) (c : RGB)
    (h : applyFilter filter tR tG tB palette randomSeed = some c) :
    desatStep true c ∈ DESATURATE_PALETTE := by
  rw [desatStep, if_pos rfl]
  exact getClosestColor_mem _ _ _ _ (by simp [DESATURATE_PALETTE])

/-- Witness for C7 with the passthrough filter on the color (10, 20, 30). -/
theorem desatStep_seven_colors_witness :
    desatStep true ⟨10, 20, 30⟩ ∈ DESATURATE_PALETTE :=
  desatStep_seven_colors FilterType.none 10 20 30 [] 0 ⟨10, 20, 30⟩
    (by norm_num [applyFilter])

theorem quantizeStep_nil (tR tG tB randomSeed : ℤ) :
    quantizeStep tR tG tB [] randomSeed = Option.none := by
  rw [quantizeStep, if_neg (by simp)]
  have hidx : gradientIndex (jsRound ((tR : ℚ) * 0.299 + (tG : ℚ) * 0.587 +
      (tB : ℚ) * 0.114)) (List.length ([] : List RGB)) = -1 := by
    rw [gradientIndex]
    norm_num
  rw [hidx, listGetJS, if_neg (by norm_num)]

/-- C10: for any non-empty palette and nonnegative luma the gradient index
`min(floor(bVal/256 * n), n - 1)` lies in `[0, n-1]` and the access succeeds;
with an empty palette the quantize step's access yields `undefined` (modelled
`none`), so every popart-filtered cell crashes, every unstyled rainbow color
crashes, and the brownish branch's `palette.find(...) || palette[0]` fallback
also yields `undefined` (concretely at the brownish color (100, 80, 0)). -/
theorem rainbow_popart_empty_palette :
    (∀ (bVal : ℤ) (P : List RGB), P ≠ [] → 0 ≤ bVal →
      0 ≤ gradientIndex bVal P.length ∧
      gradientIndex bVal P.length ≤ (P.length : ℤ) - 1 ∧
      (listGetJS P (gradientIndex bVal P.length)).isSome = true) ∧
    (∀ tR tG tB randomSeed : ℤ,
      rainbowPopartFilter FilterType.popart tR tG tB [] randomSeed = Option.none) ∧
    (∀ tR tG tB randomSeed : ℤ, styledStep tR tG tB [] = Option.none →
      rainbowPopartFilter FilterType.rainbow tR tG tB [] randomSeed = Option.none) ∧
    orangeEntry [] = Option.none ∧
    rainbowPopartFilter FilterType.rainbow 100 80 0 [] 17 = Option.none := by
  refine ⟨?_, ?_, ?_, rfl, ?_⟩
  · intro bVal P hP hb
    have hlen : 1 ≤ P.length := List.length_pos.mpr hP
    have h0 : 0 ≤ gradientIndex bVal P.length := by
      rw [gradientIndex]
      refine le_min (Int.floor_nonneg.mpr ?_) (by omega)
      positivity
    have h1 : gradientIndex bVal P.length ≤ (P.length : ℤ) - 1 :=
      min_le_right _ _
    refine ⟨h0, h1, ?_⟩
    rw [listGetJS, if_pos h0, List.get?_eq_getElem?,
      List.getElem?_eq_getElem (by omega)]
    rfl
  · intro tR tG tB randomSeed
    rw [rainbowPopartFilter]
    cases h : styledStep tR tG tB [] with
    | none => exact quantizeStep_nil tR tG tB randomSeed
    | some res =>
      cases res with
      | none => rfl
      | some c => exact quantizeStep_nil tR tG tB randomSeed
  · intro tR tG tB randomSeed h
    rw [rainbowPopartFilter, h]
    exact quantizeStep_nil tR tG tB randomSeed
  · have hstyled : styledStep 100 80 0 [] = some Option.none := by
      rw [styledStep]
      norm_num
      rfl
    rw [rainbowPopartFilter, hstyled]

/-- Witness for C10's universally quantified part at luma 100 and the
singleton black palette. -/
theorem rainbow_popart_empty_palette_witness :
    0 ≤ gradientIndex 100 ([⟨0, 0, 0⟩] : List RGB).length ∧
    gradientIndex 100 ([⟨0, 0, 0⟩] : List RGB).length ≤
      (([⟨0, 0, 0⟩] : List RGB).length : ℤ) - 1 ∧
    (listGetJS [⟨0, 0, 0⟩] (gradientIndex 100 ([⟨0, 0, 0⟩] : List RGB).length)).isSome = true :=
  rainbow_popart_empty_palette.1 100 [⟨0, 0, 0⟩] (by simp) (by norm_num)

/-- The `ProcessOptions` configuration object.  `saturation`/`brightness` are
optional in the source (defaulted to 1.0 via
`options.x !== undefined ? options.x : 1.0`), hence `Option ℚ`;
`isDesaturated`/`blinkState` are used as truthy flags. -/
structure ProcessOptions where
  gridSize : ℕ
  shape : ShapeType
  filter : FilterType
  palette : List RGB
  randomSeed : ℤ
  zoom : ℚ
  offsetX : ℚ
  offsetY : ℚ
  isDesaturated : Bool
  saturation : Option ℚ
  brightness : Option ℚ
  blinkState : Bool

/-- The full per-cell color stage chain: sample, jitter (when enabled),
brightness/saturation/clamp, style filter, desaturation post-pass, blink
override.  `none` models the `TypeError` thrown on the rainbow/popart empty
palette accesses. -/
noncomputable def cellColor (o : ProcessOptions) (surf : Surface) (cellSize : ℚ)
    (x y : ℕ) (seed : ℤ) : Option RGB :=
  let s := sampleCell surf cellSize x y
  let t := transformPipeline o.randomSeed o.brightness o.saturation seed s.1 s.2.1 s.2.2
  (applyFilter o.filter t.1 t.2.1 t.2.2 o.palette o.randomSeed).map
    (fun c => blinkStep o.blinkState x y (desatStep o.isDesaturated c))

/-- Containment predicates of the silhouette `Path2D`s built by `processImage`,
in working-surface coordinates: `ctx.isPointInPath` on the `arc` circle and
the centred `rect` square is containment in the closed disc / square of side
`min(width, height)`; the heart is a four-cubic-Bézier browser path whose
point test is kept abstract as `heartPred`.  `rectangle` builds no path. -/
def silhouette (shape : ShapeType) (w h : ℚ) (heartPred : ℚ → ℚ → Bool) :
    Option (ℚ → ℚ → Bool) :=
  match shape with
  | ShapeType.rectangle => none
  | ShapeType.circle =>
    some fun px py => decide ((px - w / 2) ^ 2 + (py - h / 2) ^ 2 ≤ (min w h / 2) ^ 2)
  | ShapeType.square =>
    some fun px py => decide ((w - min w h) / 2 ≤ px ∧ px ≤ (w - min w h) / 2 + min w h ∧
      (h - min w h) / 2 ≤ py ∧ py ≤ (h - min w h) / 2 + min w h)
  | ShapeType.heart => some heartPred

/-- The four-corner acceptance test on the cell's padded draw rectangle
(`isInside` stays `true` without a path; with a path it requires all four
`isPointInPath` corner checks). -/
def cellAccepted (o : ProcessOptions) (w h cellSize : ℚ)
    (heartPred : ℚ → ℚ → Bool) (x y : ℕ) : Bool :=
  match silhouette o.shape w h heartPred with
  | none => true
  | some pred =>
    let padding := cellSize * 0.1
    let drawSize := cellSize - padding * 2
    let drawX := (x : ℚ) * cellSize + padding
    let drawY := (y : ℚ) * cellSize + padding
    pred drawX drawY && pred (drawX + drawSize) drawY &&
      pred drawX (drawY + drawSize) && pred (drawX + drawSize) (drawY + drawSize)

/-- One grid cell's processing record: the color it would be drawn with
(`none` = crash) and whether the boundary test accepted it. -/
structure CellResult where
  x : ℕ
  y : ℕ
  color : Option RGB
  accepted : Bool

/-- Row-major cell coordinates `(x, y)`: `y` outer (`for (let y ...)`),
`x` inner. -/
def gridCells (rows gridSize : ℕ) : List (ℕ × ℕ) :=
  (List.range rows).flatMap fun (y : ℕ) => (List.range gridSize).map fun (x : ℕ) => (x, y)

/-- The grid scan threading the running jitter seed counter: the counter
advances by 3 per cell exactly when `options.randomSeed > 0` (the three
`prng(seed++)` draws of the jitter block). -/
noncomputable def renderFold (o : ProcessOptions) (surf : Surface) (cellSize : ℚ)
    (heartPred : ℚ → ℚ → Bool) : List (ℕ × ℕ) → ℤ → List CellResult
  | [], _ => []
  | (x, y) :: rest, seed =>
    ⟨x, y, cellColor o surf cellSize x y seed,
      cellAccepted o surf.width surf.height cellSize heartPred x y⟩ ::
      renderFold o surf cellSize heartPred rest
        (if 0 < o.randomSeed then seed + 3 else seed)

/-- The row count `Math.ceil(workHeight / cellSize)`. -/
def rowsOf (height cellSize : ℚ) : ℕ := Int.toNat ⌈height / cellSize⌉

/-- The cell loop of `processImage` over the working surface, with
`cellSize = workWidth / gridSize` and the seed counter started at
`options.randomSeed`. -/
noncomputable def renderCells (o : ProcessOptions) (surf : Surface)
    (heartPred : ℚ → ℚ → Bool) : List CellResult :=
  renderFold o surf (surf.width / o.gridSize) heartPred
    (gridCells (rowsOf surf.height (surf.width / o.gridSize)) o.gridSize) o.randomSeed

/-- The target canvas: its dimensions and whether `getContext('2d')`
succeeds. -/
structure Canvas where
  width : ℚ
  height : ℚ
  hasCtx : Bool

/-- The working resolution (`MAX_WIDTH = 1200` cap, aspect preserving). -/
def workDims (imgW imgH : ℚ) : ℚ × ℚ :=
  if 1200 < imgW then (1200, imgH * (1200 / imgW))
  else (imgW, imgH)

/-- The zoom/pan source rectangle `(sx, sy, sWidth, sHeight)` (zoom defaulted
through the falsy check `options.zoom || 1.0`, offsets applied, then the final
clamp into source bounds). -/
def sourceRect (imgW imgH zoom offsetX offsetY : ℚ) : ℚ × ℚ × ℚ × ℚ :=
  let z := if zoom = 0 then 1 else zoom
  let sW := imgW / z
  let sH := imgH / z
  let sx := (imgW - sW) / 2 + offsetX * (imgW - sW)
  let sy := (imgH - sH) / 2 + offsetY * (imgH - sH)
  (max 0 (min (imgW - sW) sx), max 0 (min (imgH - sH) sy), sW, sH)

/-- The entry point `processImage(image, canvas, options)`: the final canvas state and the
cell results, or `none` with the canvas untouched when the target's 2D
context is unavailable (and `none` after the resize when the offscreen
context is unavailable).  The browser primitives outside the repository —
`drawImage` resampling into the offscreen buffer and the heart `Path2D`
point test — are parameters (`resample`, `heartPred`). -/
noncomputable def processImage (image : Surface) (canvas : Canvas)
    (offCtxOk : Bool) (resample : Surface → ℚ × ℚ × ℚ × ℚ → ℚ → ℚ → ℚ → ℕ)
    (heartPred : ℚ → ℚ → Bool) (o : ProcessOptions) :
    Canvas × Option (List CellResult) :=
  if canvas.hasCtx = false then (canvas, none)
  else
    let dims := workDims image.width image.height
    let canvas2 : Canvas := ⟨dims.1, dims.2, canvas.hasCtx⟩
    if offCtxOk = false then (canvas2, none)
    else
      let rect := sourceRect image.width image.height o.zoom o.offsetX o.offsetY
      let surf : Surface := ⟨dims.1, dims.2, resample image rect dims.1 dims.2⟩
      (canvas2, some (renderCells o surf heartPred))

theorem gridCells_length (rows gridSize : ℕ) :
    (gridCells rows gridSize).length = rows * gridSize := by
  have h := length_bind_const (List.range rows)
    (fun y => (List.range gridSize).map fun (x : ℕ) => (x, y)) gridSize
    (fun a _ => by rw [List.length_map, List.length_range])
  rw [gridCells, h, List.length_range]

theorem gridCells_get? (rows gridSize x y : ℕ) (hx : x < gridSize) (hy : y < rows) :
    (gridCells rows gridSize).get? (y * gridSize + x) = some (x, y) := by
  induction rows with
  | zero => omega
  | succ r ih =>
    have hsplit : gridCells (r + 1) gridSize =
        gridCells r gridSize ++ (List.range gridSize).map fun (x : ℕ) => (x, r) := by
      rw [gridCells, List.range_succ, List.flatMap_append]
      simp [gridCells]
    rw [hsplit]
    rcases Nat.lt_or_ge y r with h | h
    · rw [List.get?_append]
      · exact ih h
      · rw [gridCells_length]
        have h1 : (y + 1) * gridSize ≤ r * gridSize := Nat.mul_le_mul_right _ h
        have h2 : y * gridSize + x < (y + 1) * gridSize := by
          rw [Nat.succ_mul]
          omega
        omega
    · have hyr : y = r := by omega
      subst hyr
      rw [List.get?_append_right (by rw [gridCells_length]; omega)]
      rw [gridCells_length]
      have hsub : y * gridSize + x - y * gridSize = x := by omega
      rw [hsub, List.get?_map, List.get?_range hx]
      rfl

theorem renderFold_get? (o : ProcessOptions) (surf : Surface) (cellSize : ℚ)
    (heartPred : ℚ → ℚ → Bool) (l : List (ℕ × ℕ)) (seed : ℤ) (k : ℕ) :
    (renderFold o surf cellSize heartPred l seed).get? k =
      (l.get? k).map fun p =>
        ⟨p.1, p.2, cellColor o surf cellSize p.1 p.2
            (if 0 < o.randomSeed then seed + 3 * (k : ℤ) else seed),
          cellAccepted o surf.width surf.height cellSize heartPred p.1 p.2⟩ := by
  induction l generalizing seed k with
  | nil => simp [renderFold]
  | cons p rest ih =>
    obtain ⟨x, y⟩ := p
    cases k with
    | zero => simp [renderFold]
    | succ k' =>
      rw [renderFold, List.get?_cons_succ, ih, List.get?_cons_succ]
      by_cases hs : 0 < o.randomSeed
      · simp only [hs, if_true]
        have harith : seed + 3 + 3 * (k' : ℤ) = seed + 3 * ((k' + 1 : ℕ) : ℤ) := by
          push_cast
          ring
        rw [harith]
      · simp only [hs, if_false]

theorem renderCells_get? (o : ProcessOptions) (surf : Surface)
    (heartPred : ℚ → ℚ → Bool) (x y : ℕ) (hx : x < o.gridSize)
    (hy : y < rowsOf surf.height (surf.width / o.gridSize)) :
    (renderCells o surf heartPred).get? (y * o.gridSize + x) =
      some ⟨x, y, cellColor o surf (surf.width / o.gridSize) x y
          (if 0 < o.randomSeed then o.randomSeed + 3 * ((y * o.gridSize + x : ℕ) : ℤ)
           else o.randomSeed),
        cellAccepted o surf.width surf.height (surf.width / o.gridSize) heartPred x y⟩ := by
  rw [renderCells, renderFold_get?, gridCells_get? _ _ x y hx hy]
  rfl

/-- C4: with `randomSeed > 0` the jitter stage runs for every cell of the
row-major grid scan, with the single running counter (started at
`randomSeed`, advanced by 3 per cell) standing at
`randomSeed + 3 * (y * gridSize + x)` for the cell `(x, y)`; the three draws
R, G, B use consecutive counter values `s`, `s+1`, `s+2`, each setting
`channel := (channel + prng * 50) % 255` (wrap, not clamp); and every jitter
value `prng s = frac(sin(s) * 10000)` lies in `[0, 1)`. -/
theorem jitter_running_counter (o : ProcessOptions) (surf : Surface)
    (heartPred : ℚ → ℚ → Bool) (x y : ℕ) (hseed : 0 < o.randomSeed)
    (hx : x < o.gridSize) (hy : y < rowsOf surf.height (surf.width / o.gridSize)) :
    ((renderCells o surf heartPred).get? (y * o.gridSize + x)).map CellResult.color =
      some (cellColor o surf (surf.width / o.gridSize) x y
        (o.randomSeed + 3 * ((y * o.gridSize + x : ℕ) : ℤ))) ∧
    (∀ seed r g b : ℤ,
      transformPipeline o.randomSeed o.brightness o.saturation seed r g b =
        transform (o.brightness.getD 1) (o.saturation.getD 1)
          (jsFmod ((r : ℝ) + prng seed * 50) 255,
           jsFmod ((g : ℝ) + prng (seed + 1) * 50) 255,
           jsFmod ((b : ℝ) + prng (seed + 2) * 50) 255)) ∧
    ∀ s : ℤ, 0 ≤ prng s ∧ prng s < 1 := by
  refine ⟨?_, ?_, fun s => ⟨prng_nonneg s, prng_lt_one s⟩⟩
  · rw [renderCells_get? o surf heartPred x y hx hy, if_pos hseed]
    rfl
  · intro seed r g b
    rw [transformPipeline, if_pos hseed, jitterTriple]

/-- Witness for C4 on a 1×1 surface with gridSize 1 and randomSeed 5. -/
theorem jitter_running_counter_witness :
    ((renderCells ⟨1, ShapeType.rectangle, FilterType.none, [], 5, 1, 0, 0,
        false, Option.none, Option.none, false⟩ ⟨1, 1, fun _ => 0⟩
        (fun _ _ => false)).get? (0 * 1 + 0)).map CellResult.color =
      some (cellColor ⟨1, ShapeType.rectangle, FilterType.none, [], 5, 1, 0, 0,
          false, Option.none, Option.none, false⟩ ⟨1, 1, fun _ => 0⟩
        ((1 : ℚ) / (1 : ℕ)) 0 0 (5 + 3 * ((0 * 1 + 0 : ℕ) : ℤ))) :=
  (jitter_running_counter _ ⟨1, 1, fun _ => 0⟩ (fun _ _ => false) 0 0
    (by norm_num) (by norm_num)
    (by rw [rowsOf]; norm_num)).1

/-- C8: a rectangle silhouette accepts every cell; for square, circle and
heart, a cell is accepted iff all four corners of its padded draw rectangle
(10% inset per side) satisfy the silhouette containment predicate, where the
square predicate is the centred square of side `min(w, h)`, the circle
predicate is the centred closed disc of radius `min(w, h) / 2`, and the heart
predicate is the browser's point test of the four-Bézier heart path; any
single failing corner excludes the whole cell. -/
theorem shape_acceptance (o : ProcessOptions) (surf : Surface)
    (heartPred : ℚ → ℚ → Bool) (x y : ℕ) (hx : x < o.gridSize)
    (hy : y < rowsOf surf.height (surf.width / o.gridSize)) :
    (o.shape = ShapeType.rectangle →
      ((renderCells o surf heartPred).get? (y * o.gridSize + x)).map
        CellResult.accepted = some true) ∧
    (∀ pred, silhouette o.shape surf.width surf.height heartPred = some pred →
      ((renderCells o surf heartPred).get? (y * o.gridSize + x)).map
          CellResult.accepted =
        some (pred ((x : ℚ) * (surf.width / o.gridSize) +
                (surf.width / o.gridSize) * 0.1)
              ((y : ℚ) * (surf.width / o.gridSize) +
                (surf.width / o.gridSize) * 0.1) &&
            pred (((x : ℚ) * (surf.width / o.gridSize) +
                (surf.width / o.gridSize) * 0.1) +
                ((surf.width / o.gridSize) - (surf.width / o.gridSize) * 0.1 * 2))
              ((y : ℚ) * (surf.width / o.gridSize) +
                (surf.width / o.gridSize) * 0.1) &&
            pred ((x : ℚ) * (surf.width / o.gridSize) +
                (surf.width / o.gridSize) * 0.1)
              (((y : ℚ) * (surf.width / o.gridSize) +
                (surf.width / o.gridSize) * 0.1) +
                ((surf.width / o.gridSize) - (surf.width / o.gridSize) * 0.1 * 2)) &&
            pred (((x : ℚ) * (surf.width / o.gridSize) +
                (surf.width / o.gridSize) * 0.1) +
                ((surf.width / o.gridSize) - (surf.width / o.gridSize) * 0.1 * 2))
              (((y : ℚ) * (surf.width / o.gridSize) +
                (surf.width / o.gridSize) * 0.1) +
                ((surf.width / o.gridSize) - (surf.width / o.gridSize) * 0.1 * 2)))) ∧
    (o.shape = ShapeType.circle →
      silhouette o.shape surf.width surf.height heartPred =
        some fun px py => decide ((px - surf.width / 2) ^ 2 +
          (py - surf.height / 2) ^ 2 ≤ (min surf.width surf.height / 2) ^ 2)) ∧
    (o.shape = ShapeType.square →
      silhouette o.shape surf.width surf.height heartPred =
        some fun px py => decide
          ((surf.width - min surf.width surf.height) / 2 ≤ px ∧
            px ≤ (surf.width - min surf.width surf.height) / 2 +
              min surf.width surf.height ∧
            (surf.height - min surf.width surf.height) / 2 ≤ py ∧
            py ≤ (surf.height - min surf.width surf.height) / 2 +
              min surf.width surf.height)) ∧
    (o.shape = ShapeType.heart →
      silhouette o.shape surf.width surf.height heartPred = some heartPred) := by
  refine ⟨?_, ?_, ?_, ?_, ?_⟩
  · intro hshape
    rw [renderCells_get? o surf heartPred x y hx hy]
    show some (cellAccepted o surf.width surf.height (surf.width / o.gridSize)
      heartPred x y) = some true
    rw [cellAccepted, hshape]
    rfl
  · intro pred hpred
    rw [renderCells_get? o surf heartPred x y hx hy]
    show some (cellAccepted o surf.width surf.height (surf.width / o.gridSize)
      heartPred x y) = _
    rw [cellAccepted, hpred]
  · intro hshape
    rw [hshape]
    rfl
  · intro hshape
    rw [hshape]
    rfl
  · intro hshape
    rw [hshape]
    rfl

/-- Witness for C8 with the rectangle shape on a 1×1 surface with
gridSize 1. -/
theorem shape_acceptance_witness :
    ((renderCells ⟨1, ShapeType.rectangle, FilterType.none, [], 0, 1, 0, 0,
        false, Option.none, Option.none, false⟩ ⟨1, 1, fun _ => 0⟩
        (fun _ _ => false)).get? (0 * 1 + 0)).map CellResult.accepted =
      some true :=
  (shape_acceptance _ ⟨1, 1, fun _ => 0⟩ (fun _ _ => false) 0 0
    (by norm_num) (by rw [rowsOf]; norm_num)).1 rfl

/-- C2: determinism — the rendered output (canvas state, every cell's color
and acceptance) is a pure function of the source image, the target canvas,
the browser primitives and the configuration; two invocations on identical
inputs produce identical outputs, in particular when `randomSeed > 0`, since
the jitter stream is the pure function `prng` of the running counter, itself
determined by `randomSeed` and the scan position alone. -/
theorem processImage_deterministic (image image' : Surface)
    (canvas canvas' : Canvas) (off off' : Bool)
    (resample resample' : Surface → ℚ × ℚ × ℚ × ℚ → ℚ → ℚ → ℚ → ℕ)
    (heartPred heartPred' : ℚ → ℚ → Bool) (o o' : ProcessOptions)
    (himg : image = image') (hcv : canvas = canvas') (hoff : off = off')
    (hres : resample = resample') (hheart : heartPred = heartPred')
    (hopt : o = o') :
    processImage image canvas off resample heartPred o =
      processImage image' canvas' off' resample' heartPred' o' := by
  subst himg
  subst hcv
  subst hoff
  subst hres
  subst hheart
  subst hopt
  rfl

/-- Witness for C2 with a jittering configuration (randomSeed 5). -/
theorem processImage_deterministic_witness :
    processImage ⟨1, 1, fun _ => 0⟩ ⟨0, 0, true⟩ true (fun _ _ _ _ _ => 0)
        (fun _ _ => false)
        ⟨1, ShapeType.circle, FilterType.none, [], 5, 1, 0, 0, false,
          Option.none, Option.none, false⟩ =
      processImage ⟨1, 1, fun _ => 0⟩ ⟨0, 0, true⟩ true (fun _ _ _ _ _ => 0)
        (fun _ _ => false)
        ⟨1, ShapeType.circle, FilterType.none, [], 5, 1, 0, 0, false,
          Option.none, Option.none, false⟩ :=
  processImage_deterministic _ _ _ _ _ _ _ _ _ _ _ _
    rfl rfl rfl rfl rfl rfl

/-- C9: when the target canvas cannot provide a 2D drawing context,
`processImage` returns immediately — before the `canvas.width`/`height`
resize and before any drawing — leaving the canvas untouched and rendering
nothing; the embedding is a total function, so no error is thrown. -/
theorem processImage_no_ctx (image : Surface) (canvas : Canvas) (off : Bool)
    (resample : Surface → ℚ × ℚ × ℚ × ℚ → ℚ → ℚ → ℚ → ℕ)
    (heartPred : ℚ → ℚ → Bool) (o : ProcessOptions)
    (h : canvas.hasCtx = false) :
    processImage image canvas off resample heartPred o = (canvas, Option.none) := by
  rw [processImage, if_pos h]

/-- Witness for C9 on a 7×9 canvas without a 2D context. -/
theorem processImage_no_ctx_witness :
    processImage ⟨1, 1, fun _ => 0⟩ ⟨7, 9, false⟩ true (fun _ _ _ _ _ => 0)
        (fun _ _ => false)
        ⟨1, ShapeType.rectangle, FilterType.none, [], 0, 1, 0, 0, false,
          Option.none, Option.none, false⟩ =
      (⟨7, 9, false⟩, Option.none) :=
  processImage_no_ctx ⟨1, 1, fun _ => 0⟩ ⟨7, 9, false⟩ true _ _ _ rfl

end Pixelator
